import Mathlib

/-!
Verification of the Walter Schloss stock screener (`stock_screener.py`)
against its specification.

The embedding models:
* a fundamentals snapshot (`Info`) as a record of optional fields,
  mirroring the Python `info` dict accessed via `info.get`;
* a price history as the list of its daily "Low" values (the only column
  the program reads), with rational numbers standing for the floats;
* the qualification predicate `stock_qualifies`;
* the retrying fetcher `fetch_stock_data` over an abstract provider
  (attempt number → outcome), recording provider calls and backoff sleeps;
* the pipeline `build_screener`;
* the result store (`save_all_results`, `save_recommended_results`,
  `prune_old_results`) over an explicit directory / file-content state.
-/

/-- Python `needle in hay` on strings: some tail of `hay` starts with
`needle`. -/
def strContains (hay needle : String) : Bool :=
  hay.toList.tails.any (fun t => needle.toList.isPrefixOf t)

/-- Python `str.lower()` for the ASCII strings this program compares. -/
def pyLower (s : String) : String := ⟨s.data.map Char.toLower⟩

/-- The fundamentals snapshot (the `info` dict): every field the screener
reads, each optional, as accessed through `info.get` in `stock_qualifies`
and `build_screener`. -/
structure Info where
  industry : Option String
  exchange : Option String
  marketCap : Option ℚ
  debtToEquity : Option ℚ
  priceToBook : Option ℚ
  profitMargins : Option ℚ
  regularMarketPrice : Option ℚ
deriving DecidableEq

/-- The price history: the sequence of daily "Low" values (`hist['Low']`);
`hist.empty` is emptiness of this list and `hist['Low'].min()` its
minimum. -/
abbrev Hist := List ℚ

/-- `stock_qualifies(info, hist)`, `stock_screener.py` lines 88-144.
Python early returns become nested if-then-else; `info.get(k, d)` becomes
`Option.getD`; the float literals `50e6`, `0.4`, `1.2`, `0.35` are the
exact rationals they denote. -/
def stock_qualifies (info : Info) (hist : Hist) : Bool :=
  let industry := info.industry.getD ""
  if industry != "" &&
      (strContains (pyLower industry) "financial" ||
       strContains (pyLower industry) "real estate") then false
  else if industry != "" && strContains (pyLower industry) "tobacco" then false
  else
    let exchange := info.exchange.getD ""
    if exchange != "" && strContains (pyLower exchange) "otc" then false
    else if info.marketCap.getD 0 < 50000000 then false
    else if info.debtToEquity.getD 100 > 0.4 then false
    else if info.priceToBook.getD 100 ≥ 1.2 then false
    else if info.profitMargins.getD 0 ≤ 0 then false
    else
      match hist with
      | [] => false
      | l :: ls =>
        let three_year_low := List.foldl min l ls
        match info.regularMarketPrice with
        | none => false
        | some current_price =>
          if current_price < 5 then false
          else if (current_price - three_year_low) / three_year_low > 0.35 then false
          else true

/-- The two retryable error classes of `fetch_stock_data` (line 79):
a substring test on the stringified exception. -/
def isRetryable (msg : String) : Bool :=
  strContains msg "Too Many Requests" || strContains msg "401 Client Error"

/-- The errors `fetch_stock_data` can raise: a re-raised provider
exception, or the exhaustion failure built at line 86. -/
inductive FetchErr where
  | reraised (msg : String)
  | failedAfter (ticker : String) (retries : Nat)
deriving DecidableEq

/-- Python `str(e)` for the two `FetchErr` shapes; the `failedAfter`
message is the f-string of line 86. -/
def errMsg : FetchErr → String
  | .reraised m => m
  | .failedAfter t n =>
      "Failed to fetch data for " ++ t ++ " after " ++ toString n ++ " retries."

/-- Observable trace of one `fetch_stock_data` call: how many provider
calls were made, which backoff sleeps were performed (in order), and the
final outcome. -/
structure FetchTrace (α : Type) where
  calls : Nat
  sleeps : List Nat
  result : Except FetchErr α

/-- The `while retries < max_retries` loop of `fetch_stock_data`
(lines 71-85), structurally recursing on the remaining retry budget.
`attempt` numbers the provider calls from 0, `delay` is the current
backoff delay, and `max_retries` is carried for the exhaustion message. -/
def fetchAttempts {α : Type} (provider : Nat → Except String α) (ticker : String)
    (max_retries : Nat) (attempt delay remaining : Nat) : FetchTrace α :=
  match remaining with
  | 0 => ⟨0, [], .error (.failedAfter ticker max_retries)⟩
  | r + 1 =>
    match provider attempt with
    | .ok res => ⟨1, [], .ok res⟩
    | .error msg =>
      if isRetryable msg then
        let rest := fetchAttempts provider ticker max_retries (attempt + 1) (delay * 2) r
        ⟨rest.calls + 1, delay :: rest.sleeps, rest.result⟩
      else ⟨1, [], .error (.reraised msg)⟩

/-- `fetch_stock_data(ticker, max_retries)`, lines 64-86: the retry loop
started with `retries = 0` and `delay = 1`. The provider abstracts the
`yf.Ticker` / `info` / `history` block, keyed by attempt number. -/
def fetch_stock_data {α : Type} (provider : Nat → Except String α) (ticker : String)
    (max_retries : Nat) : FetchTrace α :=
  fetchAttempts provider ticker max_retries 0 1 max_retries

/-- `is_valid_ticker` (line 57-58): `re.search` for one ASCII
alphanumeric character. -/
def is_valid_ticker (ticker : String) : Bool :=
  ticker.toList.any (fun c => c.isAlpha || c.isDigit)

/-- `build_screener(tickers)`, lines 146-203.  A run's environment is a
provider per ticker per attempt; each symbol is fetched through
`fetch_stock_data` with the default `max_retries = 3`.  Returns
`(qualifying, all_results)`. -/
def build_screener (provider : String → Nat → Except String (Info × Hist)) :
    List String → List String × List String
  | [] => ([], [])
  | ticker :: rest =>
    let pr := build_screener provider rest
    if !is_valid_ticker ticker then
      (pr.1, (ticker ++ " - Skipped invalid ticker") :: pr.2)
    else
      match (fetch_stock_data (provider ticker) ticker 3).result with
      | .ok (info, hist) =>
        if stock_qualifies info hist then
          (ticker :: pr.1, (ticker ++ " - Qualifies") :: pr.2)
        else
          (pr.1, (ticker ++ " - Does not qualify") :: pr.2)
      | .error e => (pr.1, (ticker ++ " - Error: " ++ errMsg e) :: pr.2)

/-- The audit line `build_screener` records for one symbol: it depends
only on that symbol's own fetch behaviour. -/
def screen_verdict (provider : String → Nat → Except String (Info × Hist))
    (ticker : String) : String :=
  if !is_valid_ticker ticker then ticker ++ " - Skipped invalid ticker"
  else
    match (fetch_stock_data (provider ticker) ticker 3).result with
    | .ok (info, hist) =>
      if stock_qualifies info hist then ticker ++ " - Qualifies"
      else ticker ++ " - Does not qualify"
    | .error e => ticker ++ " - Error: " ++ errMsg e

/-- Whether one symbol ends up in the qualifying list: valid, fetched
successfully, and passing `stock_qualifies`. -/
def ticker_passes (provider : String → Nat → Except String (Info × Hist))
    (ticker : String) : Bool :=
  is_valid_ticker ticker &&
    match (fetch_stock_data (provider ticker) ticker 3).result with
    | .ok (info, hist) => stock_qualifies info hist
    | .error _ => false

/-- One file of the results directory: its name, its modification time
(abstract clock), and its content. -/
structure DirFile where
  name : String
  mtime : Nat
  content : String
deriving DecidableEq

/-- The snapshot naming pattern of `prune_old_results` line 246:
`f.startswith("results_") and f.endswith(".txt")`, stated on the
character list so it evaluates. -/
def isSnapName (name : String) : Bool :=
  "results_".toList.isPrefixOf name.toList && ".txt".toList.isSuffixOf name.toList

/-- Order used by `files.sort(key=os.path.getmtime)`. -/
def mtimeLE (a b : DirFile) : Prop := a.mtime ≤ b.mtime

instance : DecidableRel mtimeLE := fun a b => Nat.decLe a.mtime b.mtime

/-- `prune_old_results(folder, max_files)`, lines 241-251: filter the
directory to the snapshot pattern; if more than `max_files` remain, sort
ascending by modification time and delete all but the last `max_files`
(`files[:-max_files]`). -/
def prune_old_results (dir : List DirFile) (max_files : Nat) : List DirFile :=
  let files := dir.filter (fun f => isSnapName f.name)
  if files.length > max_files then
    let sortedFiles := List.insertionSort mtimeLE files
    let removed := sortedFiles.take (sortedFiles.length - max_files)
    dir.filter (fun f => decide (f ∉ removed))
  else dir

/-- The snapshot file `save_recommended_results` writes (lines 231-236):
name `results_<timestamp>.txt`, header line plus one qualifying symbol
per line, with the supplied modification time. -/
def snapFile (qualifying : List String) (timestamp : String) (mtimeNew : Nat) : DirFile :=
  { name := "results_" ++ timestamp ++ ".txt"
    mtime := mtimeNew
    content :=
      List.foldl (fun acc stock => acc ++ (stock ++ "\n"))
        "Stocks meeting Walter Schloss criteria:\n" qualifying }

/-- `save_recommended_results(qualifying, folder)`, lines 223-239: write
the new timestamped snapshot into the directory, then prune with
`max_files = 7`. (Directory creation is the empty-list state.) -/
def save_recommended_results (qualifying : List String) (timestamp : String)
    (mtimeNew : Nat) (dir : List DirFile) : List DirFile :=
  prune_old_results (dir ++ [snapFile qualifying timestamp mtimeNew]) 7

/-- `save_all_results(all_results, filename)`, lines 211-221: append mode
starts from the existing content `file`; then one write of the `Run at`
header, one write per result line, one blank-line write. -/
def save_all_results (all_results : List String) (timestamp : String)
    (file : String) : String :=
  let f1 := file ++ ("Run at " ++ timestamp ++ "\n")
  let f2 := List.foldl (fun acc line => acc ++ (line ++ "\n")) f1 all_results
  f2 ++ "\n"

/-- Modelled from the spec: the audit block §4.5/§6 says one run appends —
a `Run at <timestamp>` header line, one line per verdict, then a blank
separator line.  Used to compare `save_all_results` against the spec. -/
def auditBlockSpec (timestamp : String) (lines : List String) : String :=
  "Run at " ++ timestamp ++ "\n" ++ String.join (lines.map (fun l => l ++ "\n")) ++ "\n"

/-- A snapshot passing every rule, the base point for boundary
experiments. -/
def goodInfo : Info :=
  { industry := none
    exchange := none
    marketCap := some 100000000
    debtToEquity := some 0.1
    priceToBook := some 1
    profitMargins := some 0.2
    regularMarketPrice := some 6 }

/-- A history whose 3-year low is 5, so the price-vs-low ratio for
`goodInfo` is (6-5)/5 = 0.2 ≤ 0.35. -/
def goodHist : Hist := [7, 5, 6]

/-- `goodInfo` with debt-to-equity exactly at the 0.4 boundary. -/
def dteBoundaryInfo : Info := { goodInfo with debtToEquity := some 0.4 }

/-- `goodInfo` with market capitalization exactly 50,000,000. -/
def mcapBoundaryInfo : Info := { goodInfo with marketCap := some 50000000 }

/-- `goodInfo` with the minimal allowed price 5, to pair with a negative
3-year low. -/
def negLowInfo : Info := { goodInfo with regularMarketPrice := some 5 }

/-- A history whose minimum "Low" is negative. -/
def negLowHist : Hist := [-1]

/-- `goodInfo` with the market capitalization field absent. -/
def noMcapInfo : Info := { goodInfo with marketCap := none }

/-- A provider that is rate-limited on attempts 0 and 1 and succeeds on
attempt 2. -/
def flakyProvider : Nat → Except String (Info × Hist) :=
  fun n => if n < 2 then .error "429 Too Many Requests" else .ok (goodInfo, goodHist)

/-- A provider that always fails with a non-retryable error. -/
def boomProvider : Nat → Except String (Info × Hist) :=
  fun _ => .error "boom"

/-- A provider that is always rate-limited. -/
def rateLimitedProvider : Nat → Except String (Info × Hist) :=
  fun _ => .error "Too Many Requests"

/-- The per-ticker environment of the isolation scenario: symbol `B`
always fails with a non-retryable error, every other symbol succeeds
with fully qualifying data. -/
def envABC : String → Nat → Except String (Info × Hist) :=
  fun t _ => if t = "B" then .error "boom" else .ok (goodInfo, goodHist)

/-- A per-ticker environment where every fetch succeeds with qualifying
data. -/
def envOK : String → Nat → Except String (Info × Hist) :=
  fun _ _ => .ok (goodInfo, goodHist)

/-- Ten snapshot files with distinct names and increasing modification
times, for the pruning scenario. -/
def dir10 : List DirFile :=
  (List.range 10).map (fun i => ⟨"results_" ++ toString i ++ ".txt", i, ""⟩)

/-- The number of files in a directory state matching the snapshot
pattern. -/
def countSnap (dir : List DirFile) : Nat :=
  (dir.filter (fun f => isSnapName f.name)).length

instance : IsTotal DirFile mtimeLE := ⟨fun a b => Nat.le_total a.mtime b.mtime⟩

instance : IsTrans DirFile mtimeLE := ⟨fun _ _ _ => Nat.le_trans⟩

/-- The base snapshot passes every rule. -/
theorem goodInfo_qualifies : stock_qualifies goodInfo goodHist = true := by
  norm_num [stock_qualifies, goodInfo, goodHist]

/-- Conditions that must hold whenever `stock_qualifies` returns `true`:
each numeric rule's disqualifying test was false, the history was
non-empty, and the current price was present. -/
theorem qualifies_necessary (info : Info) (hist : Hist)
    (h : stock_qualifies info hist = true) :
    ¬ info.marketCap.getD 0 < 50000000 ∧
    ¬ info.debtToEquity.getD 100 > 0.4 ∧
    ¬ info.priceToBook.getD 100 ≥ 1.2 ∧
    ¬ info.profitMargins.getD 0 ≤ 0 ∧
    hist ≠ [] ∧ info.regularMarketPrice ≠ none := by
  cases hist with
  | nil =>
    exfalso
    simp only [stock_qualifies] at h
    split_ifs at h
  | cons l ls =>
    cases hrm : info.regularMarketPrice with
    | none =>
      exfalso
      simp only [stock_qualifies, hrm] at h
      split_ifs at h
    | some cp =>
      simp only [stock_qualifies, hrm] at h
      split_ifs at h with h1 h2 h3 h4 h5 h6 h7 h8 h9
      exact ⟨h4, h5, h6, h7, by simp, by simp [hrm]⟩

/-- C2: the code has no guard for a non-positive 3-year low.  At a
negative low (`-1`) with every other rule satisfied and the minimal
allowed price 5, the ratio `(5 - (-1)) / (-1) = -6` is not `> 0.35`, so
`stock_qualifies` returns `true` — where the spec requires the
non-positive-low edge case to disqualify. -/
theorem qualifies_negative_low_eval :
    negLowHist = [-1] ∧ stock_qualifies negLowInfo negLowHist = true := by
  refine ⟨rfl, ?_⟩
  norm_num [stock_qualifies, negLowInfo, goodInfo, negLowHist]

/-- C3 counterexample: a snapshot whose debt-to-equity ratio is exactly
0.4, with every other rule satisfied, is NOT disqualified: the code's
test `debtToEquity > 0.4` is false at the boundary, so the stock
qualifies. -/
theorem debt_to_equity_boundary_cex :
    dteBoundaryInfo.debtToEquity = some 0.4 ∧
    stock_qualifies dteBoundaryInfo goodHist = true := by
  refine ⟨rfl, ?_⟩
  norm_num [stock_qualifies, dteBoundaryInfo, goodInfo, goodHist]

/-- C3 (amended): `stock_qualifies` returns `true` only if the
debt-to-equity ratio is at most 0.4 (the code disqualifies only a ratio
strictly greater than 0.4), and an absent debt-to-equity — defaulted to
100 — disqualifies. -/
theorem debt_to_equity_rule (info : Info) (hist : Hist)
    (h : stock_qualifies info hist = true) :
    info.debtToEquity.getD 100 ≤ 0.4 ∧ info.debtToEquity ≠ none := by
  obtain ⟨-, d, -, -, -, -⟩ := qualifies_necessary info hist h
  refine ⟨not_lt.mp d, fun hn => ?_⟩
  rw [hn] at d
  simp only [Option.getD_none] at d
  exact d (by norm_num)

/-- C3 witness: the amended rule at the concrete qualifying snapshot. -/
theorem debt_to_equity_rule_witness :
    goodInfo.debtToEquity.getD 100 ≤ 0.4 ∧ goodInfo.debtToEquity ≠ none :=
  debt_to_equity_rule goodInfo goodHist goodInfo_qualifies

/-- C4 counterexample: a snapshot whose market capitalization is exactly
50,000,000, with every other rule satisfied, is NOT disqualified: the
code's test `marketCap < 50e6` is false at the boundary, so the stock
qualifies. -/
theorem market_cap_boundary_cex :
    mcapBoundaryInfo.marketCap = some 50000000 ∧
    stock_qualifies mcapBoundaryInfo goodHist = true := by
  refine ⟨rfl, ?_⟩
  norm_num [stock_qualifies, mcapBoundaryInfo, goodInfo, goodHist]

/-- C4 (amended): `stock_qualifies` returns `true` only if the market
capitalization is at least 50,000,000 (the code disqualifies only a
market capitalization strictly below 50e6), and an absent market
capitalization — defaulted to 0 — disqualifies. -/
theorem market_cap_rule (info : Info) (hist : Hist)
    (h : stock_qualifies info hist = true) :
    50000000 ≤ info.marketCap.getD 0 ∧ info.marketCap ≠ none := by
  obtain ⟨m, -, -, -, -, -⟩ := qualifies_necessary info hist h
  refine ⟨not_lt.mp m, fun hn => ?_⟩
  rw [hn] at m
  simp only [Option.getD_none] at m
  exact m (by norm_num)

/-- C4 witness: the amended rule at the concrete qualifying snapshot. -/
theorem market_cap_rule_witness :
    50000000 ≤ goodInfo.marketCap.getD 0 ∧ goodInfo.marketCap ≠ none :=
  market_cap_rule goodInfo goodHist goodInfo_qualifies

/-- C9: omitting any one of the optional numeric fields — market
capitalization (default 0), debt-to-equity (default 100), price-to-book
(default 100), net profit margin (default 0), or the current market
price (absent) — makes `stock_qualifies` return `false`, for every
snapshot and history. -/
theorem missing_field_defaults (info : Info) (hist : Hist)
    (h : info.marketCap = none ∨ info.debtToEquity = none ∨
         info.priceToBook = none ∨ info.profitMargins = none ∨
         info.regularMarketPrice = none) :
    stock_qualifies info hist = false := by
  cases hq : stock_qualifies info hist
  · rfl
  · exfalso
    obtain ⟨m, d, p, g, -, rne⟩ := qualifies_necessary info hist hq
    rcases h with h | h | h | h | h
    · rw [h] at m; simp only [Option.getD_none] at m; exact m (by norm_num)
    · rw [h] at d; simp only [Option.getD_none] at d; exact d (by norm_num)
    · rw [h] at p; simp only [Option.getD_none] at p; exact p (by norm_num)
    · rw [h] at g; simp only [Option.getD_none] at g; exact g le_rfl
    · exact rne h

/-- C9 witness: omitting the market capitalization from the otherwise
qualifying snapshot disqualifies it. -/
theorem missing_field_defaults_witness :
    stock_qualifies noMcapInfo goodHist = false :=
  missing_field_defaults noMcapInfo goodHist (Or.inl rfl)

/-- Exhaustion of the retry loop: if every provider call in the budget
fails with a retryable error, the loop makes exactly `remaining` calls
and ends in the line-86 failure carrying `max_retries`. -/
theorem fetchAttempts_exhausted {α : Type} (p : Nat → Except String α) (t : String)
    (mr : Nat) :
    ∀ remaining attempt delay,
      (∀ i, attempt ≤ i → i < attempt + remaining →
        ∃ m, p i = .error m ∧ isRetryable m = true) →
      (fetchAttempts p t mr attempt delay remaining).calls = remaining ∧
      (fetchAttempts p t mr attempt delay remaining).result =
        .error (.failedAfter t mr) := by
  intro remaining
  induction remaining with
  | zero => intro attempt delay _; exact ⟨rfl, rfl⟩
  | succ r ih =>
    intro attempt delay hall
    obtain ⟨m, hm, hr⟩ := hall attempt le_rfl (by omega)
    have hrest := ih (attempt + 1) (delay * 2)
      (fun i hi1 hi2 => hall i (by omega) (by omega))
    simp only [fetchAttempts, hm, hr, if_true]
    exact ⟨by rw [hrest.1], hrest.2⟩

/-- C5: a provider that is rate-limited on its first two attempts and
succeeds on the third makes exactly 3 provider calls under
`max_retries = 3`, sleeps 1 then 2 time units (the delay doubling after
each retryable failure), and returns the successful result. -/
theorem fetch_retry_backoff {α : Type} (p : Nat → Except String α) (t : String)
    (res : α) (m1 m2 : String)
    (h0 : p 0 = .error m1) (h1 : p 1 = .error m2) (h2 : p 2 = .ok res)
    (r1 : isRetryable m1 = true) (r2 : isRetryable m2 = true) :
    fetch_stock_data p t 3 = ⟨3, [1, 2], .ok res⟩ := by
  simp only [fetch_stock_data, fetchAttempts, h0, h1, h2, r1, r2, if_true]

/-- C5 witness: the scenario at the concrete flaky provider. -/
theorem fetch_retry_backoff_witness :
    fetch_stock_data flakyProvider "AAPL" 3 = ⟨3, [1, 2], .ok (goodInfo, goodHist)⟩ :=
  fetch_retry_backoff flakyProvider "AAPL" (goodInfo, goodHist)
    "429 Too Many Requests" "429 Too Many Requests"
    rfl rfl rfl (by decide) (by decide)

/-- C6: a non-retryable provider error is re-raised after exactly one
provider call with no backoff sleep; and when every attempt in the
budget fails with a retryable error, the fetch makes `n` calls and fails
with the error naming the symbol and the attempt count. -/
theorem fetch_error_policy {α : Type} (p : Nat → Except String α) (t : String)
    (n : Nat) :
    (∀ msg, p 0 = .error msg → isRetryable msg = false →
      fetch_stock_data p t (n + 1) = ⟨1, [], .error (.reraised msg)⟩) ∧
    ((∀ i, i < n → ∃ m, p i = .error m ∧ isRetryable m = true) →
      (fetch_stock_data p t n).calls = n ∧
      (fetch_stock_data p t n).result = .error (.failedAfter t n)) := by
  constructor
  · intro msg h0 hr
    simp only [fetch_stock_data, fetchAttempts, h0, hr, if_false, Bool.false_eq_true]
  · intro hall
    exact fetchAttempts_exhausted p t n n 0 1 (fun i _ hi => hall i (by omega))

/-- C6 witness: both halves at concrete providers — a non-retryable
"boom" re-raised at once, and three straight rate limits exhausting the
budget. -/
theorem fetch_error_policy_witness :
    fetch_stock_data boomProvider "X" 3 = ⟨1, [], .error (.reraised "boom")⟩ ∧
    (fetch_stock_data rateLimitedProvider "X" 3).result =
      .error (.failedAfter "X" 3) :=
  ⟨(fetch_error_policy boomProvider "X" 2).1 "boom" rfl (by decide),
   ((fetch_error_policy rateLimitedProvider "X" 3).2
     (fun i _ => ⟨"Too Many Requests", rfl, by decide⟩)).2⟩

/-- Per-symbol characterization of the pipeline: the qualifying list is
the input filtered by `ticker_passes` and the audit list maps each input
symbol, in order, to its own verdict line. -/
theorem build_screener_eq (p : String → Nat → Except String (Info × Hist))
    (tickers : List String) :
    build_screener p tickers =
      (tickers.filter (ticker_passes p), tickers.map (screen_verdict p)) := by
  induction tickers with
  | nil => rfl
  | cons t ts ih =>
    simp only [build_screener, ih, List.filter_cons, List.map_cons]
    unfold screen_verdict ticker_passes
    cases hv : is_valid_ticker t with
    | false => simp [hv]
    | true =>
      cases hf : (fetch_stock_data (p t) t 3).result with
      | error e => simp [hv, hf]
      | ok d =>
        obtain ⟨info, hist⟩ := d
        cases hq : stock_qualifies info hist <;> simp [hv, hf, hq]

/-- C1: the pipeline yields exactly one verdict per input symbol in input
order, each symbol's verdict and qualification depend only on that
symbol's own fetch behaviour (so other symbols are unaffected by one
symbol's failure), a symbol whose fetch fails gets the
`"<symbol> - Error: <cause>"` verdict and is excluded from the
qualifying list, and the qualifying list is the input filtered in
first-seen order; the run always completes. -/
theorem screening_pipeline_isolation
    (p : String → Nat → Except String (Info × Hist)) (tickers : List String) :
    ((build_screener p tickers).1 = tickers.filter (ticker_passes p) ∧
     (build_screener p tickers).2 = tickers.map (screen_verdict p)) ∧
    (∀ q : String → Nat → Except String (Info × Hist), ∀ t, q t = p t →
      screen_verdict q t = screen_verdict p t ∧
      ticker_passes q t = ticker_passes p t) ∧
    (∀ t e, is_valid_ticker t = true →
      (fetch_stock_data (p t) t 3).result = .error e →
      screen_verdict p t = t ++ " - Error: " ++ errMsg e ∧
      ticker_passes p t = false) := by
  refine ⟨⟨by rw [build_screener_eq], by rw [build_screener_eq]⟩, ?_, ?_⟩
  · intro q t hqt
    unfold screen_verdict ticker_passes
    rw [hqt]
    exact ⟨rfl, rfl⟩
  · intro t e hv hf
    unfold screen_verdict ticker_passes
    rw [hf, hv]
    simp

/-- C1 witness: in the `[A, B, C]` scenario where only `B`'s fetch fails
(non-retryably), `B`'s verdict is the error line, `B` does not qualify,
and the pipeline outputs are the pointwise map/filter. -/
theorem screening_pipeline_isolation_witness :
    (screen_verdict envABC "B" = "B - Error: boom" ∧
     ticker_passes envABC "B" = false) ∧
    (build_screener envABC ["A", "B", "C"]).1 =
      List.filter (ticker_passes envABC) ["A", "B", "C"] ∧
    (build_screener envABC ["A", "B", "C"]).2 =
      List.map (screen_verdict envABC) ["A", "B", "C"] :=
  ⟨(screening_pipeline_isolation envABC ["A", "B", "C"]).2.2 "B"
      (.reraised "boom") (by decide) rfl,
   (screening_pipeline_isolation envABC ["A", "B", "C"]).1.1,
   (screening_pipeline_isolation envABC ["A", "B", "C"]).1.2⟩

/-- C10: the pipeline deduplicates nothing — the audit list has exactly
one line per input occurrence, and a qualifying symbol appears in the
qualifying list once per input occurrence. -/
theorem no_dedup (p : String → Nat → Except String (Info × Hist))
    (tickers : List String) (t : String) :
    (build_screener p tickers).2.length = tickers.length ∧
    (ticker_passes p t = true →
      (build_screener p tickers).1.count t = tickers.count t) := by
  constructor
  · rw [build_screener_eq]
    exact List.length_map tickers (screen_verdict p)
  · intro hp
    rw [build_screener_eq]
    exact List.count_filter hp

/-- The always-succeeding environment qualifies the symbol `AA`. -/
theorem envOK_passes : ticker_passes envOK "AA" = true := by
  have hf : (fetch_stock_data (envOK "AA") "AA" 3).result = .ok (goodInfo, goodHist) := rfl
  unfold ticker_passes
  rw [hf]
  simp only [goodInfo_qualifies, Bool.and_true]
  decide

/-- C10 witness: the duplicated input `[AA, AA]` yields two audit lines
and the qualifying symbol `AA` twice. -/
theorem no_dedup_witness :
    (build_screener envOK ["AA", "AA"]).2.length = 2 ∧
    (build_screener envOK ["AA", "AA"]).1.count "AA" = 2 :=
  ⟨(no_dedup envOK ["AA", "AA"] "AA").1.trans rfl,
   ((no_dedup envOK ["AA", "AA"] "AA").2 envOK_passes).trans (by decide)⟩

/-- Folding string concatenation from a seed prepends the seed. -/
theorem foldl_string_append (l : List String) (s : String) :
    List.foldl (fun r x => r ++ x) s l = s ++ List.foldl (fun r x => r ++ x) "" l := by
  induction l generalizing s with
  | nil => simp [String.append_empty]
  | cons a l ih =>
    simp only [List.foldl_cons, String.empty_append]
    rw [ih (s ++ a), ih a, String.append_assoc]

/-- `String.join` unfolded one element. -/
theorem string_join_cons (a : String) (l : List String) :
    String.join (a :: l) = a ++ String.join l := by
  show List.foldl (fun r x => r ++ x) ("" ++ a) l = a ++ String.join l
  rw [String.empty_append]
  exact foldl_string_append l a

/-- The line-writing loop of `save_all_results` appends the joined lines
to whatever content precedes it. -/
theorem audit_lines_foldl (rs : List String) (s : String) :
    List.foldl (fun acc line => acc ++ (line ++ "\n")) s rs =
      s ++ String.join (rs.map (fun l => l ++ "\n")) := by
  induction rs generalizing s with
  | nil => simp [String.join, String.append_empty]
  | cons r rs ih =>
    simp only [List.foldl_cons, List.map_cons]
    rw [ih, string_join_cons, String.append_assoc]

/-- C8: `save_all_results` leaves the existing audit content unchanged
and appends exactly one block — the timestamped `Run at` header, one
line per verdict, and a blank separator line; hence two consecutive runs
append two distinct blocks, neither overwriting the other. -/
theorem audit_append_only (file : String) (rs1 rs2 : List String)
    (ts1 ts2 : String) :
    save_all_results rs1 ts1 file = file ++ auditBlockSpec ts1 rs1 ∧
    save_all_results rs2 ts2 (save_all_results rs1 ts1 file) =
      file ++ auditBlockSpec ts1 rs1 ++ auditBlockSpec ts2 rs2 := by
  have one : ∀ (rs : List String) (ts f : String),
      save_all_results rs ts f = f ++ auditBlockSpec ts rs := by
    intro rs ts f
    simp only [save_all_results, auditBlockSpec]
    rw [audit_lines_foldl]
    simp [String.append_assoc]
  exact ⟨one rs1 ts1 file, by rw [one rs1 ts1 file, one rs2 ts2]⟩

/-- Permutation-invariance of filtered length. -/
theorem perm_filter_length {α : Type} (p : α → Bool) {l1 l2 : List α}
    (hp : l1.Perm l2) : (l1.filter p).length = (l2.filter p).length :=
  (hp.filter p).length_eq

/-- Filtering a duplicate-free list by non-membership in its own
`k`-prefix keeps exactly the elements after the prefix. -/
theorem length_filter_not_mem_take {α : Type} [DecidableEq α] (L T : List α)
    (k : Nat) (hnd : L.Nodup) (hT : T = L.take k) :
    (L.filter (fun a => decide (a ∉ T))).length = L.length - k := by
  have hnd2 : (L.take k ++ L.drop k).Nodup := by
    rw [List.take_append_drop]; exact hnd
  have hdisj := List.disjoint_of_nodup_append hnd2
  have h1 : List.filter (fun a => decide (a ∉ T)) (L.take k) = [] :=
    List.filter_eq_nil_iff.mpr (fun a ha => by
      have haT : a ∈ T := by rw [hT]; exact ha
      simp [haT])
  have h2 : List.filter (fun a => decide (a ∉ T)) (L.drop k) = L.drop k :=
    List.filter_eq_self.mpr (fun a ha => by
      simp only [decide_eq_true_eq]
      intro hmem
      have haL : a ∈ L.take k := by rw [← hT]; exact hmem
      exact hdisj haL ha)
  conv_lhs => rw [← List.take_append_drop k L]
  rw [List.filter_append, h1, h2, List.nil_append, List.length_drop]

/-- Pruning with at most `max_files` matching snapshots deletes
nothing. -/
theorem prune_noop (dir : List DirFile) (mf : Nat) (h : countSnap dir ≤ mf) :
    prune_old_results dir mf = dir := by
  simp only [prune_old_results]
  exact if_neg (not_lt.mpr h)

/-- Pruning a directory with distinct file names and more than
`max_files` snapshots leaves exactly `max_files` snapshots. -/
theorem prune_count (dir : List DirFile) (mf : Nat)
    (hn : (dir.map DirFile.name).Nodup) (h : mf < countSnap dir) :
    countSnap (prune_old_results dir mf) = mf := by
  have hdir : dir.Nodup := List.Nodup.of_map DirFile.name hn
  have hF : (List.filter (fun f => isSnapName f.name) dir).Nodup := hdir.filter _
  have hperm := List.perm_insertionSort mtimeLE (List.filter (fun f => isSnapName f.name) dir)
  have hlen : mf < (List.insertionSort mtimeLE (List.filter (fun f => isSnapName f.name) dir)).length := by
    rw [hperm.length_eq]; exact h
  have hsfnd := hperm.symm.nodup hF
  simp only [countSnap, prune_old_results]
  rw [if_pos (show (List.filter (fun f => isSnapName f.name) dir).length > mf from h)]
  rw [List.filter_comm]
  set SF := List.insertionSort mtimeLE (List.filter (fun f => isSnapName f.name) dir) with hG
  rw [perm_filter_length _ hperm.symm]
  rw [length_filter_not_mem_take SF (SF.take (SF.length - mf)) (SF.length - mf) hsfnd rfl]
  omega

/-- Pruning only ever removes files that were in the directory. -/
theorem prune_subset (dir : List DirFile) (mf : Nat) :
    ∀ f ∈ prune_old_results dir mf, f ∈ dir := by
  intro f hf
  simp only [prune_old_results] at hf
  split at hf
  · exact (List.mem_filter.mp hf).1
  · exact hf

/-- Every file pruning removes matches the snapshot pattern and is no
newer (by modification time) than any snapshot it keeps. -/
theorem prune_oldest (dir : List DirFile) (mf : Nat)
    (hn : (dir.map DirFile.name).Nodup) :
    ∀ f ∈ dir, f ∉ prune_old_results dir mf →
      isSnapName f.name = true ∧
      ∀ g ∈ prune_old_results dir mf, isSnapName g.name = true →
        f.mtime ≤ g.mtime := by
  intro f hf hfout
  by_cases hc : countSnap dir ≤ mf
  · exact absurd ((prune_noop dir mf hc).symm ▸ hf) hfout
  push_neg at hc
  have hdir : dir.Nodup := List.Nodup.of_map DirFile.name hn
  have hF : (List.filter (fun f => isSnapName f.name) dir).Nodup := hdir.filter _
  have hperm := List.perm_insertionSort mtimeLE (List.filter (fun f => isSnapName f.name) dir)
  have hsorted := List.sorted_insertionSort mtimeLE (List.filter (fun f => isSnapName f.name) dir)
  have heq : prune_old_results dir mf =
      List.filter (fun f => decide (f ∉
        (List.insertionSort mtimeLE (List.filter (fun f => isSnapName f.name) dir)).take
          ((List.insertionSort mtimeLE (List.filter (fun f => isSnapName f.name) dir)).length - mf))) dir := by
    simp only [prune_old_results]
    rw [if_pos (show (List.filter (fun f => isSnapName f.name) dir).length > mf from hc)]
  set SF := List.insertionSort mtimeLE (List.filter (fun f => isSnapName f.name) dir) with hG
  rw [heq] at hfout
  have hfin : f ∈ SF.take (SF.length - mf) := by
    by_contra hcon
    exact hfout (List.mem_filter.mpr ⟨hf, by simp [hcon]⟩)
  have hpw : List.Pairwise mtimeLE (SF.take (SF.length - mf) ++ SF.drop (SF.length - mf)) := by
    rw [List.take_append_drop]; exact hsorted
  constructor
  · have hfF : f ∈ List.filter (fun f => isSnapName f.name) dir :=
      hperm.subset (List.mem_of_mem_take hfin)
    exact (List.mem_filter.mp hfF).2
  · intro g hg hgsnap
    rw [heq] at hg
    obtain ⟨hgdir, hgp⟩ := List.mem_filter.mp hg
    have hgnotin : g ∉ SF.take (SF.length - mf) := by simpa using hgp
    have hgSF : g ∈ SF := hperm.symm.subset (List.mem_filter.mpr ⟨hgdir, hgsnap⟩)
    have hgsplit : g ∈ SF.take (SF.length - mf) ++ SF.drop (SF.length - mf) := by
      rw [List.take_append_drop]; exact hgSF
    have hgdrop : g ∈ SF.drop (SF.length - mf) := by
      rcases List.mem_append.mp hgsplit with h | h
      · exact absurd h hgnotin
      · exact h
    exact (List.pairwise_append.mp hpw).2.2 f hfin g hgdrop

/-- The file `save_recommended_results` writes matches the snapshot
naming pattern. -/
theorem snapFile_isSnap (q : List String) (ts : String) (mt : Nat) :
    isSnapName (snapFile q ts mt).name = true := by
  simp only [snapFile, isSnapName, Bool.and_eq_true]
  constructor
  · rw [List.isPrefixOf_iff_prefix]
    have h : ("results_" ++ ts ++ ".txt").toList =
        "results_".toList ++ (ts.toList ++ ".txt".toList) := by
      simp [String.toList]
    rw [h]
    exact List.prefix_append _ _
  · rw [List.isSuffixOf_iff_suffix]
    have h : ("results_" ++ ts ++ ".txt").toList =
        ("results_".toList ++ ts.toList) ++ ".txt".toList := by
      simp [String.toList]
    rw [h]
    exact List.suffix_append _ _

/-- C7: after `save_recommended_results` writes the new timestamped
snapshot and prunes, at most 7 snapshot files remain no matter how many
existed; 10 existing snapshots plus the new one are pruned down to
exactly 7; everything deleted is a snapshot file no newer (by
modification time) than any snapshot kept; pruning with 7 or fewer
snapshots present deletes nothing; and pruning is idempotent. -/
theorem snapshot_retention (dir : List DirFile) (q : List String) (ts : String)
    (mt : Nat) (hn : ((dir ++ [snapFile q ts mt]).map DirFile.name).Nodup) :
    countSnap (save_recommended_results q ts mt dir) ≤ 7 ∧
    (countSnap dir = 10 → countSnap (save_recommended_results q ts mt dir) = 7) ∧
    (∀ f ∈ dir ++ [snapFile q ts mt], f ∉ save_recommended_results q ts mt dir →
      isSnapName f.name = true ∧
      ∀ g ∈ save_recommended_results q ts mt dir, isSnapName g.name = true →
        f.mtime ≤ g.mtime) ∧
    (countSnap dir ≤ 7 → prune_old_results dir 7 = dir) ∧
    prune_old_results (prune_old_results dir 7) 7 = prune_old_results dir 7 := by
  have hcount_app : countSnap (dir ++ [snapFile q ts mt]) = countSnap dir + 1 := by
    simp [countSnap, List.filter_append, snapFile_isSnap]
  have hnames_dir : (dir.map DirFile.name).Nodup := by
    rw [List.map_append] at hn
    exact (List.nodup_append.mp hn).1
  refine ⟨?_, ?_, ?_, prune_noop dir 7, ?_⟩
  · by_cases hc : countSnap (dir ++ [snapFile q ts mt]) ≤ 7
    · unfold save_recommended_results
      rw [prune_noop _ _ hc]
      exact hc
    · push_neg at hc
      unfold save_recommended_results
      exact le_of_eq (prune_count _ _ hn hc)
  · intro h10
    unfold save_recommended_results
    apply prune_count _ _ hn
    rw [hcount_app, h10]
    norm_num
  · intro f hf hfout
    exact prune_oldest (dir ++ [snapFile q ts mt]) 7 hn f hf hfout
  · by_cases hc : countSnap dir ≤ 7
    · rw [prune_noop dir 7 hc]
      exact prune_noop dir 7 hc
    · push_neg at hc
      exact prune_noop _ _ (le_of_eq (prune_count dir 7 hnames_dir hc))

/-- C7 witness: ten existing snapshots plus the newly written one are
pruned down to exactly 7. -/
theorem snapshot_retention_witness :
    countSnap (save_recommended_results ["AAPL"] "20260101_000000" 100 dir10) ≤ 7 ∧
    countSnap (save_recommended_results ["AAPL"] "20260101_000000" 100 dir10) = 7 :=
  ⟨(snapshot_retention dir10 ["AAPL"] "20260101_000000" 100 (by decide)).1,
   (snapshot_retention dir10 ["AAPL"] "20260101_000000" 100 (by decide)).2.1
     (by decide)⟩
